import Mathlib

/-!
Shallow embedding of the session/state-management core of the RAG mentor
frontend (src/frontend/app/page.tsx) and proofs about it.

Text is modelled as `List Char` (called `Str`): JavaScript string primitives
used by the code (`trim`, `slice(0, n)`, `length`, emptiness/truthiness
tests, concatenation) become `List` operations.  A JavaScript value of type
`string | null` becomes `Option Str`; JavaScript truthiness of such a value
(`null` and `""` are falsy) is made explicit.  JSON values parsed from the
persistence medium are modelled by the inductive `Json`; property access
`c.f` on a parsed record is total except on `null`, where it throws (the
exception is propagated in `Except`, mirroring the `try`/`catch` around the
load initializer).
-/

namespace RagMentor

/-- Character-list model of a JavaScript string. -/
abbrev Str := List Char

/-- Whitespace test used by `String.prototype.trim` (the characters the code
can realistically contain). -/
def isWS (c : Char) : Bool :=
  c == ' ' || c == '\t' || c == '\n' || c == '\r'

/-- Model of `s.trim()`: drop leading and trailing whitespace. -/
def trimStr (s : Str) : Str :=
  ((s.dropWhile isWS).reverse.dropWhile isWS).reverse

/-- JavaScript truthiness of a `string | null` value: `null` and the empty
string are falsy, every other string is truthy. -/
def optStrTruthy : Option Str → Bool
  | none => false
  | some s => !s.isEmpty

/-- Skill level selector (`type SkillLevel`). -/
inductive SkillLevel where
  | beginner
  | intermediate
  | pro
deriving DecidableEq

/-- One step of a mentor answer (`steps` array element). -/
structure Step where
  title : Str
  detail : Str
deriving DecidableEq

/-- Mentor API response payload (`type AskResponse`). -/
structure AskResponse where
  tldr : Str
  explanation : Str
  steps : Option (List Step)
  fixed_code : Option Str
  diff : Option Str
  context_used : Option Str
  conversation_id : Option Str
deriving DecidableEq

/-- One question/answer exchange (`type ChatTurn`). -/
structure ChatTurn where
  id : Str
  question : Str
  code : Option Str
  errorMsg : Option Str
  skill : SkillLevel
  response : AskResponse
deriving DecidableEq

/-- A saved conversation (`type SavedConversation`).  The turn type is a
parameter: the load initializer casts whatever JSON array it finds without
per-turn validation, so loading produces `SavedConversation Json`, while the
in-memory store holds `SavedConversation ChatTurn`. -/
structure SavedConversation (τ : Type) where
  id : Str
  conversationId : Option Str
  title : Str
  createdAt : Int
  turns : List τ
deriving DecidableEq

/-- Request body sent to the Mentor API `/ask` endpoint. -/
structure AskRequest where
  question : Str
  code_snippet : Option Str
  error_message : Option Str
  skill_level : SkillLevel
  conversation_id : Option Str
deriving DecidableEq

/-- Component state of `MentorApp` relevant to session/lifecycle logic. -/
structure AppState where
  question : Str
  code : Str
  errorMsg : Str
  skill : SkillLevel
  showCodeInput : Bool
  showErrorInput : Bool
  conversationId : Option Str
  chat : List ChatTurn
  conversations : List (SavedConversation ChatTurn)
  loading : Bool
  errorText : Option Str
deriving DecidableEq

/-- Generic user-facing error message set by `handleAsk` on failure. -/
def mentorErrorText : Str :=
  "Something went wrong while calling the mentor API.".toList

/-- Request body `handleAsk` passes to `askMentor`: empty `code` / `errorMsg`
inputs are normalized to `null` (`code || null`, `errorMsg || null`), the
question is sent as typed, and the current remote conversation id is sent. -/
def buildRequest (st : AppState) : AskRequest :=
  { question := st.question
    code_snippet := if st.code = [] then none else some st.code
    error_message := if st.errorMsg = [] then none else some st.errorMsg
    skill_level := st.skill
    conversation_id := st.conversationId }

/-- Model of `handleAsk`.  The awaited Mentor API call is the function
argument `api` (applied to the request `handleAsk` builds); `Except.error`
covers both a network failure and a non-ok HTTP status, since `askMentor`
throws on `!res.ok`.  `freshTurnId` stands for the generated
`crypto.randomUUID()` value for the new turn.  The returned state is the
state after the call completes (the `finally` block has run, so `loading`
is already cleared). -/
def handleAsk (st : AppState) (api : AskRequest → Except Str AskResponse)
    (freshTurnId : Str) : AppState :=
  if trimStr st.question = [] then st
  else
    match api (buildRequest st) with
    | .error _ =>
      { st with loading := false, errorText := some mentorErrorText }
    | .ok data =>
      let newConversationId : Option Str :=
        if !optStrTruthy st.conversationId && optStrTruthy data.conversation_id then
          data.conversation_id
        else st.conversationId
      let baseResponse : AskResponse := { data with explanation := [] }
      let turn : ChatTurn :=
        { id := freshTurnId
          question := st.question
          code := if st.code = [] then none else some st.code
          errorMsg := if st.errorMsg = [] then none else some st.errorMsg
          skill := st.skill
          response := baseResponse }
      { st with
        conversationId := newConversationId
        chat := st.chat ++ [turn]
        question := []
        code := []
        errorMsg := []
        showCodeInput := false
        showErrorInput := false
        loading := false
        errorText := none }

/-- Model of `handleNewConversation`.  `freshStorageId` stands for the
generated `crypto.randomUUID()` storage id and `now` for `Date.now()`.  If
the active chat is non-empty, a snapshot Conversation is prepended to the
store (title derived from the first turn's question); afterwards, in either
case, the remote id, chat and the question/code/error inputs and the error
banner are reset.  The `showCodeInput` / `showErrorInput` toggles are not
touched by this handler in the source. -/
def handleNewConversation (st : AppState) (freshStorageId : Str) (now : Int) :
    AppState :=
  let st' :=
    match st.chat with
    | [] => st
    | firstTurn :: _ =>
      let baseTitle : Str :=
        if trimStr firstTurn.question ≠ [] then trimStr firstTurn.question
        else "New conversation".toList
      let title : Str :=
        if baseTitle.length > 60 then baseTitle.take 57 ++ "...".toList
        else baseTitle
      let newConv : SavedConversation ChatTurn :=
        { id := freshStorageId
          conversationId := st.conversationId
          title := title
          createdAt := now
          turns := st.chat }
      { st with conversations := newConv :: st.conversations }
  { st' with
    conversationId := none
    chat := []
    question := []
    code := []
    errorMsg := []
    errorText := none }

/-- Model of `handleDeleteConversation`: filter the deleted id out of the
store; if the deleted conversation's remote id strictly equals the active
remote id and the active remote id is truthy (`conversationId && ...`),
additionally clear the active session. -/
def handleDeleteConversation (st : AppState) (conv : SavedConversation ChatTurn) :
    AppState :=
  let st' :=
    { st with conversations := st.conversations.filter (fun c => c.id ≠ conv.id) }
  if optStrTruthy st.conversationId ∧ conv.conversationId = st.conversationId then
    { st' with
      conversationId := none
      chat := []
      question := []
      code := []
      errorMsg := []
      errorText := none }
  else st'

/-- Model of a parsed JSON value held in the persistence medium. -/
inductive Json where
  | jnull
  | jbool (b : Bool)
  | jnum (n : Int)
  | jstr (s : Str)
  | jarr (elems : List Json)
  | jobj (fields : List (Str × Json))

/-- Property access `c.f` on a parsed non-null value: a field of an object,
`undefined` (here `none`) on any other non-null receiver.  Access on `null`
throws in JavaScript and is handled separately in `sanitizeOne`. -/
def getField (c : Json) (k : Str) : Option Json :=
  match c with
  | .jobj fields => (fields.find? (fun p => p.1 == k)).map (fun p => p.2)
  | _ => none

/-- Coerce an optional field to a string, or nothing (`typeof f === "string"`). -/
def asStr : Option Json → Option Str
  | some (.jstr s) => some s
  | _ => none

/-- Coerce an optional field to a number, or nothing (`typeof f === "number"`). -/
def asNum : Option Json → Option Int
  | some (.jnum n) => some n
  | _ => none

/-- Coerce an optional field to an array, or nothing (`Array.isArray(f)`). -/
def asArr : Option Json → Option (List Json)
  | some (.jarr xs) => some xs
  | _ => none

/-- The candidate local id of a record: `typeof c.id === "string" && c.id.length > 0
? c.id : ""` (here `[]` plays the role of `""`). -/
def rawIdOf (c : Json) : Str :=
  match asStr (getField c ("id".toList)) with
  | some s => s
  | none => []

/-- Local id chosen during load sanitation: if the candidate id is blank or
already seen in this load pass, allocate a fresh one from the allocator
stream `alloc` at the current allocation counter (`crypto.randomUUID()` in
the source, represented as a stream of generated ids); otherwise reuse the
candidate.  Returns the chosen id and the updated counter. -/
def chooseId (alloc : Nat → Str) (rawId : Str) (seen : List Str) (ctr : Nat) :
    Str × Nat :=
  if rawId = [] ∨ rawId ∈ seen then (alloc ctr, ctr + 1) else (rawId, ctr)

/-- Remote conversation id of a loaded record: accept `conversationId` or the
legacy `conversation_id` field when it is a string, else `null`. -/
def remoteIdOf (c : Json) : Option Str :=
  match asStr (getField c ("conversationId".toList)) with
  | some s => some s
  | none => asStr (getField c ("conversation_id".toList))

/-- Title of a loaded record: the stored title when it is a string that is
non-blank after trimming, else the literal fallback. -/
def titleOf (c : Json) : Str :=
  match asStr (getField c ("title".toList)) with
  | some s => if trimStr s ≠ [] then s else "Conversation".toList
  | none => "Conversation".toList

/-- Creation time of a loaded record: the stored number, else `Date.now()`. -/
def createdAtOf (c : Json) (now : Int) : Int :=
  match asNum (getField c ("createdAt".toList)) with
  | some n => n
  | none => now

/-- Turns of a loaded record: the stored array as-is (the source casts it to
`ChatTurn[]` without validating elements), else the empty sequence. -/
def turnsOf (c : Json) : List Json :=
  match asArr (getField c ("turns".toList)) with
  | some xs => xs
  | none => []

/-- Sanitize one persisted record, threading the seen-id set and the
allocation counter.  A `null` element throws (`c.id` on `null` is a
TypeError inside the `map` callback), which the enclosing `Except` carries
to the batch's `catch`. -/
def sanitizeOne (alloc : Nat → Str) (now : Int) (c : Json) (seen : List Str)
    (ctr : Nat) : Except Unit (SavedConversation Json × List Str × Nat) :=
  match c with
  | .jnull => .error ()
  | _ =>
    let idc := chooseId alloc (rawIdOf c) seen ctr
    .ok ({ id := idc.1
           conversationId := remoteIdOf c
           title := titleOf c
           createdAt := createdAtOf c now
           turns := turnsOf c },
         idc.1 :: seen, idc.2)

/-- Sanitize a persisted array element by element (`parsed.map (c => ...)`):
an exception thrown by any element aborts the whole map. -/
def sanitizeAll (alloc : Nat → Str) (now : Int) :
    List Json → List Str → Nat → Except Unit (List (SavedConversation Json))
  | [], _, _ => .ok []
  | c :: rest, seen, ctr =>
    match sanitizeOne alloc now c seen ctr with
    | .error e => .error e
    | .ok (conv, seen', ctr') =>
      match sanitizeAll alloc now rest seen' ctr' with
      | .error e => .error e
      | .ok convs => .ok (conv :: convs)

/-- Model of the `conversations` load initializer (`ConversationStore.load`).
`raw` is the parsed content of the collection slot: `none` when the slot is
absent or `JSON.parse` threw; a non-array parse and an exception escaping
the element map both fall to the `catch`/guard that yields `[]`. -/
def loadConversations (alloc : Nat → Str) (now : Int) (raw : Option Json) :
    List (SavedConversation Json) :=
  match raw with
  | none => []
  | some (.jarr records) =>
    match sanitizeAll alloc now records [] 0 with
    | .ok convs => convs
    | .error _ => []
  | some _ => []

/-- Candidate local ids occurring in a persisted array, for stating that the
allocator stream avoids the persisted ids. -/
def rawStrIds (raw : Option Json) : List Str :=
  match raw with
  | some (.jarr records) => records.map rawIdOf
  | _ => []

/-- Values emitted for a turn by `streamExplanation`'s interval from a given
character index: each tick advances the index by `CHUNK_SIZE = 2` and writes
`fullText.slice(0, index)` into the turn's explanation; once the index
reaches or passes the text length the interval is cleared (this emission is
still made by that final tick, and `slice` clamps).  The list of successive
written values is the observable trace of the reveal; its finiteness is the
termination of the timer. -/
def streamTraceFrom (fullText : Str) (index : Nat) : List Str :=
  if h : fullText.length ≤ index + 2 then [fullText.take (index + 2)]
  else fullText.take (index + 2) :: streamTraceFrom fullText (index + 2)
termination_by fullText.length - index
decreasing_by omega

/-- Trace of visible-explanation values emitted by
`streamExplanation(fullText, turnId)` for its turn, from the initial
`index = 0`. -/
def streamTrace (fullText : Str) : List Str :=
  streamTraceFrom fullText 0

/-- Concrete Mentor API response used to instantiate theorems. -/
def exampleResponse : AskResponse :=
  { tldr := "tl".toList
    explanation := "expl".toList
    steps := none
    fixed_code := none
    diff := none
    context_used := none
    conversation_id := some ("abc123".toList) }

/-- Concrete baseline component state used to instantiate theorems. -/
def exampleState : AppState :=
  { question := "What is a list comprehension?".toList
    code := []
    errorMsg := []
    skill := .beginner
    showCodeInput := false
    showErrorInput := false
    conversationId := none
    chat := []
    conversations := []
    loading := true
    errorText := none }

/-- Concrete turn used to instantiate theorems. -/
def exampleTurn : ChatTurn :=
  { id := "t1".toList
    question := "  What is recursion?  ".toList
    code := none
    errorMsg := none
    skill := .beginner
    response := exampleResponse }

/-- Mentor API stub that always succeeds with `exampleResponse`. -/
def okApi : AskRequest → Except Str AskResponse :=
  fun _ => .ok exampleResponse

/-- Mentor API stub that always fails. -/
def errApi : AskRequest → Except Str AskResponse :=
  fun _ => .error ("ECONNREFUSED".toList)

/-- State whose active remote id is bound to the non-empty id of
`exampleResponse`. -/
def boundState : AppState :=
  { exampleState with conversationId := some ("abc123".toList) }

/-- State whose active remote id is the empty string: non-null but falsy. -/
def emptyRemoteState : AppState :=
  { exampleState with conversationId := some [] }

/-- Mentor API stub that succeeds with a remote id different from the one in
`exampleResponse`. -/
def otherIdApi : AskRequest → Except Str AskResponse :=
  fun _ => .ok { exampleResponse with conversation_id := some ("zzz999".toList) }

/-- State whose question carries leading and trailing whitespace. -/
def paddedState : AppState :=
  { exampleState with question := " hi ".toList }

/-- State with a non-empty code snippet and error-message input. -/
def snippetState : AppState :=
  { exampleState with code := "x = 1".toList, errorMsg := "TypeError".toList }

/-- State with both optional input panels toggled open. -/
def panelState : AppState :=
  { exampleState with showCodeInput := true, showErrorInput := true }

/-- State holding one active turn, for snapshot/title theorems. -/
def titledState : AppState :=
  { exampleState with chat := [exampleTurn] }

/-- Stored conversation whose remote id matches `boundChatState`'s. -/
def activeConv : SavedConversation ChatTurn :=
  { id := "k1".toList
    conversationId := some ("abc123".toList)
    title := "T".toList
    createdAt := 0
    turns := [] }

/-- State with a bound remote id and a non-empty chat. -/
def boundChatState : AppState :=
  { exampleState with
    conversationId := some ("abc123".toList)
    chat := [exampleTurn]
    conversations := [activeConv] }

/-- Stored conversation whose remote id is the empty string. -/
def emptyRemoteConv : SavedConversation ChatTurn :=
  { id := "k2".toList
    conversationId := some []
    title := "T".toList
    createdAt := 0
    turns := [] }

/-- State whose active remote id is the empty string and chat is non-empty. -/
def emptyRemoteChatState : AppState :=
  { exampleState with
    conversationId := some []
    chat := [exampleTurn]
    conversations := [emptyRemoteConv] }

/-- Allocator stream used to instantiate the load theorems: pairwise
distinct ids made of repeated x characters. -/
def wAlloc : Nat → Str :=
  fun n => List.replicate (n + 1) 'x'

/-- Persisted collection with a duplicated id and a record missing its id. -/
def wRaw : Option Json :=
  some (.jarr
    [ .jobj [("id".toList, .jstr ("a".toList))]
    , .jobj [("id".toList, .jstr ("a".toList))]
    , .jobj [] ])

/-- Well-formed persisted record used in the mixed-batch counterexample. -/
def cGood : Json :=
  .jobj
    [ ("id".toList, .jstr ("a".toList))
    , ("title".toList, .jstr ("T".toList))
    , ("createdAt".toList, .jnum 5)
    , ("turns".toList, .jarr []) ]

/-- Persisted collection mixing a well-formed record and a null element. -/
def cMixedRaw : Option Json :=
  some (.jarr [cGood, .jnull])

theorem streamTraceFrom_ne_nil (t : Str) (i : Nat) : streamTraceFrom t i ≠ [] := by
  rw [streamTraceFrom]
  split <;> simp

theorem streamTraceFrom_head (t : Str) (i : Nat) :
    (streamTraceFrom t i).head? = some (t.take (i + 2)) := by
  rw [streamTraceFrom]
  split <;> simp

theorem streamTraceFrom_mem_length_le (t : Str) (i : Nat) :
    ∀ s ∈ streamTraceFrom t i, s.length ≤ t.length := by
  induction i using streamTraceFrom.induct t with
  | case1 i h =>
    rw [streamTraceFrom]
    simp only [dif_pos h, List.mem_singleton]
    rintro s rfl
    simp [List.length_take]
  | case2 i h ih =>
    rw [streamTraceFrom]
    simp only [dif_neg h, List.mem_cons]
    rintro s (rfl | hs)
    · simp [List.length_take]
    · exact ih s hs

theorem streamTraceFrom_chain (t : Str) (i : Nat) :
    List.Chain' (fun a b => a.length ≤ b.length) (streamTraceFrom t i) := by
  induction i using streamTraceFrom.induct t with
  | case1 i h =>
    rw [streamTraceFrom]
    simp [dif_pos h]
  | case2 i h ih =>
    rw [streamTraceFrom]
    simp only [dif_neg h]
    refine List.chain'_cons'.mpr ⟨?_, ih⟩
    intro y hy
    rw [streamTraceFrom_head t (i + 2)] at hy
    simp only [Option.mem_def, Option.some.injEq] at hy
    subst hy
    simp only [List.length_take]
    omega

theorem streamTraceFrom_getLast (t : Str) (i : Nat) :
    (streamTraceFrom t i).getLast? = some t := by
  induction i using streamTraceFrom.induct t with
  | case1 i h =>
    rw [streamTraceFrom]
    simp [dif_pos h, List.take_of_length_le h]
  | case2 i h ih =>
    rw [streamTraceFrom]
    simp only [dif_neg h]
    obtain ⟨x, xs, hx⟩ := List.exists_cons_of_ne_nil (streamTraceFrom_ne_nil t (i + 2))
    rw [hx, List.getLast?_cons_cons, ← hx]
    exact ih

/-- C3: for every turn and every full explanation text, the sequence of
visible-explanation values emitted by the reveal has monotonically
non-decreasing length, never exceeds the full text's length, the reveal
terminates (the emitted trace is a finite list, the last tick clearing the
interval), and the final emitted value equals the full text exactly. -/
theorem streamRenderer_reveal_correct (fullText : Str) :
    streamTrace fullText ≠ [] ∧
    List.Chain' (fun a b => a.length ≤ b.length) (streamTrace fullText) ∧
    (∀ s ∈ streamTrace fullText, s.length ≤ fullText.length) ∧
    (streamTrace fullText).getLast? = some fullText :=
  ⟨streamTraceFrom_ne_nil fullText 0, streamTraceFrom_chain fullText 0,
   streamTraceFrom_mem_length_le fullText 0, streamTraceFrom_getLast fullText 0⟩

/-- Witness instantiating the reveal theorem on a concrete text. -/
theorem streamRenderer_reveal_correct_witness :
    (streamTrace ("hello".toList)).getLast? = some ("hello".toList) :=
  (streamRenderer_reveal_correct ("hello".toList)).2.2.2

/-- C4: for every askQuestion call with a non-blank question, a failing
Mentor API call (throw or non-success status, both of which surface as an
exception from askMentor) appends no turn and sets the generic user-facing
error message, and in both outcomes the loading flag is false when the call
returns. -/
theorem askQuestion_failure_handling (st : AppState)
    (api : AskRequest → Except Str AskResponse) (tid : Str)
    (hq : trimStr st.question ≠ []) :
    (∀ e, api (buildRequest st) = .error e →
        (handleAsk st api tid).chat = st.chat ∧
        (handleAsk st api tid).errorText = some mentorErrorText) ∧
    (handleAsk st api tid).loading = false := by
  rcases hres : api (buildRequest st) with e | data <;>
    simp [handleAsk, hq, hres]

/-- Witness instantiating the failure-handling theorem on a concrete state
and a failing API stub. -/
theorem askQuestion_failure_handling_witness :
    (handleAsk exampleState errApi []).chat = exampleState.chat ∧
    (handleAsk exampleState errApi []).loading = false := by
  have h := askQuestion_failure_handling exampleState errApi [] (by decide)
  exact ⟨(h.1 ("ECONNREFUSED".toList) rfl).1, h.2⟩

/-- C2 counterexample: a session whose remote id is the empty string — a
non-null value — has it replaced by a later response carrying a different
id, because the source guards the bind with JavaScript truthiness
(`!conversationId`), under which the empty string counts as unbound. -/
theorem remote_id_rebound_when_empty_cex :
    emptyRemoteState.conversationId = some [] ∧
    (handleAsk emptyRemoteState okApi []).conversationId =
      some ("abc123".toList) ∧
    (handleAsk emptyRemoteState okApi []).conversationId ≠
      emptyRemoteState.conversationId := by
  refine ⟨rfl, rfl, ?_⟩
  decide

/-- C2 amended: askQuestion binds the response's conversation id only when
the session's current remote id is null or the empty string (JavaScript
falsy), and a session whose remote id is a non-empty string never has it
replaced by any later response; any id that does get bound is non-empty, so
within one session the remote id is still written at most once. -/
theorem remote_id_first_write_wins (st : AppState)
    (api : AskRequest → Except Str AskResponse) (tid : Str) :
    (∀ s, st.conversationId = some s → s ≠ [] →
        (handleAsk st api tid).conversationId = some s) ∧
    ((handleAsk st api tid).conversationId ≠ st.conversationId →
      (st.conversationId = none ∨ st.conversationId = some []) ∧
      ∃ t, t ≠ [] ∧ (handleAsk st api tid).conversationId = some t) := by
  by_cases hq : trimStr st.question = []
  · refine ⟨?_, ?_⟩
    · intro s hs _
      simp [handleAsk, hq, hs]
    · intro hne
      simp [handleAsk, hq] at hne
  · rcases hres : api (buildRequest st) with e | data
    · refine ⟨?_, ?_⟩
      · intro s hs _
        simp [handleAsk, hq, hres, hs]
      · intro hne
        simp [handleAsk, hq, hres] at hne
    · refine ⟨?_, ?_⟩
      · intro s hs hsne
        rcases s with _ | ⟨a, as⟩
        · exact absurd rfl hsne
        · simp [handleAsk, hq, hres, hs, optStrTruthy]
      · intro hchanged
        simp only [handleAsk, hq, if_neg hq, hres] at hchanged ⊢
        by_cases hcond :
            (!optStrTruthy st.conversationId &&
              optStrTruthy data.conversation_id) = true
        · rw [if_pos hcond] at hchanged ⊢
          rcases Bool.and_eq_true_iff.mp hcond with ⟨hfalsy, htruthy⟩
          constructor
          · rcases hcid : st.conversationId with _ | s
            · exact Or.inl rfl
            · right
              rw [hcid] at hfalsy
              rcases s with _ | ⟨a, as⟩
              · rfl
              · simp [optStrTruthy] at hfalsy
          · rcases hdata : data.conversation_id with _ | t
            · rw [hdata] at htruthy
              simp [optStrTruthy] at htruthy
            · refine ⟨t, ?_, by simp [hdata]⟩
              rw [hdata] at htruthy
              rcases t with _ | ⟨a, as⟩
              · simp [optStrTruthy] at htruthy
              · simp
        · rw [if_neg hcond] at hchanged
          exact absurd rfl hchanged

/-- Witness instantiating the first-write-wins theorem: a bound session keeps
its remote id even when a later response carries a different one. -/
theorem remote_id_first_write_wins_witness :
    (handleAsk boundState otherIdApi []).conversationId =
      some ("abc123".toList) :=
  (remote_id_first_write_wins boundState otherIdApi []).1
    ("abc123".toList) rfl (by decide)

/-- C7 counterexample: submitting a question with surrounding whitespace
appends a turn whose question field is the raw text, not its trimmed form —
the source appends the untrimmed `question` state even though the guard
trims it for the emptiness test. -/
theorem askQuestion_question_not_trimmed_cex :
    (handleAsk paddedState okApi []).chat.map (fun t => t.question) =
      [" hi ".toList] ∧
    trimStr (" hi ".toList) ≠ " hi ".toList := by
  refine ⟨rfl, ?_⟩
  decide

/-- C7 amended: for every askQuestion call that appends a turn, the appended
turn's question field is the text exactly as submitted (possibly carrying
leading or trailing whitespace); its trimmed form is non-empty because of
the entry guard. -/
theorem askQuestion_question_as_submitted (st : AppState)
    (api : AskRequest → Except Str AskResponse) (tid : Str)
    (data : AskResponse)
    (hq : trimStr st.question ≠ [])
    (hapi : api (buildRequest st) = .ok data) :
    ∃ turn : ChatTurn,
      (handleAsk st api tid).chat = st.chat ++ [turn] ∧
      turn.question = st.question ∧
      trimStr turn.question ≠ [] := by
  refine ⟨{ id := tid
            question := st.question
            code := if st.code = [] then none else some st.code
            errorMsg := if st.errorMsg = [] then none else some st.errorMsg
            skill := st.skill
            response := { data with explanation := [] } }, ?_, rfl, hq⟩
  simp [handleAsk, hq, hapi]

/-- Witness instantiating the question-as-submitted theorem on the
whitespace-padded concrete state. -/
theorem askQuestion_question_as_submitted_witness :
    ∃ turn : ChatTurn,
      (handleAsk paddedState okApi []).chat = paddedState.chat ++ [turn] ∧
      turn.question = paddedState.question ∧
      trimStr turn.question ≠ [] :=
  askQuestion_question_as_submitted paddedState okApi [] exampleResponse
    (by decide) rfl

/-- C10: for every askQuestion call that issues a request, an empty code or
error-message input is normalized to null in the Mentor API request body and
is absent from the appended turn, while a non-empty input is passed through
unchanged in both places. -/
theorem askQuestion_optional_field_normalization (st : AppState)
    (api : AskRequest → Except Str AskResponse) (tid : Str)
    (data : AskResponse)
    (hq : trimStr st.question ≠ [])
    (hapi : api (buildRequest st) = .ok data) :
    (st.code = [] → (buildRequest st).code_snippet = none) ∧
    (st.code ≠ [] → (buildRequest st).code_snippet = some st.code) ∧
    (st.errorMsg = [] → (buildRequest st).error_message = none) ∧
    (st.errorMsg ≠ [] → (buildRequest st).error_message = some st.errorMsg) ∧
    ∃ turn : ChatTurn,
      (handleAsk st api tid).chat = st.chat ++ [turn] ∧
      (st.code = [] → turn.code = none) ∧
      (st.code ≠ [] → turn.code = some st.code) ∧
      (st.errorMsg = [] → turn.errorMsg = none) ∧
      (st.errorMsg ≠ [] → turn.errorMsg = some st.errorMsg) := by
  refine ⟨?_, ?_, ?_, ?_, ?_⟩
  · intro h; simp [buildRequest, h]
  · intro h; simp [buildRequest, h]
  · intro h; simp [buildRequest, h]
  · intro h; simp [buildRequest, h]
  refine ⟨{ id := tid
            question := st.question
            code := if st.code = [] then none else some st.code
            errorMsg := if st.errorMsg = [] then none else some st.errorMsg
            skill := st.skill
            response := { data with explanation := [] } }, ?_, ?_, ?_, ?_, ?_⟩
  · simp [handleAsk, hq, hapi]
  · intro h; simp [h]
  · intro h; simp [h]
  · intro h; simp [h]
  · intro h; simp [h]

/-- Witness instantiating the normalization theorem on a state with a
non-empty code snippet and error message. -/
theorem askQuestion_optional_field_normalization_witness :
    (buildRequest snippetState).code_snippet = some ("x = 1".toList) ∧
    (buildRequest snippetState).error_message = some ("TypeError".toList) :=
  ⟨(askQuestion_optional_field_normalization snippetState okApi []
      exampleResponse (by decide) rfl).2.1 (by decide),
   (askQuestion_optional_field_normalization snippetState okApi []
      exampleResponse (by decide) rfl).2.2.2.1 (by decide)⟩

/-- C5 counterexample: newConversation leaves the toggled input panels open
— the source's reset path never writes `showCodeInput` / `showErrorInput`,
so a state with both panels open keeps them open, contradicting the claim
that all ephemeral input fields including the toggled panels are cleared. -/
theorem newConversation_panels_not_cleared_cex :
    (handleNewConversation panelState [] 0).showCodeInput = true ∧
    (handleNewConversation panelState [] 0).showErrorInput = true := by
  exact ⟨rfl, rfl⟩

/-- C5 amended: after newConversation returns — whether or not the active
session was empty — the active remote id is null, the active turn sequence
is empty, the question, code and error-message inputs are empty and the
user-facing error is cleared; the toggled panels keep their previous
state. -/
theorem newConversation_resets_session (st : AppState) (fid : Str)
    (now : Int) :
    (handleNewConversation st fid now).conversationId = none ∧
    (handleNewConversation st fid now).chat = [] ∧
    (handleNewConversation st fid now).question = [] ∧
    (handleNewConversation st fid now).code = [] ∧
    (handleNewConversation st fid now).errorMsg = [] ∧
    (handleNewConversation st fid now).errorText = none ∧
    (handleNewConversation st fid now).showCodeInput = st.showCodeInput ∧
    (handleNewConversation st fid now).showErrorInput = st.showErrorInput := by
  unfold handleNewConversation
  rcases hchat : st.chat with _ | ⟨t, rest⟩ <;> simp

/-- C8: the title newConversation derives from the first active turn's
question is the literal fallback when the trimmed question is blank, the
trimmed question itself when its length is at most 60, and its first 57
characters followed by an ellipsis when its length exceeds 60. -/
theorem newConversation_title_derivation (st : AppState) (fid : Str)
    (now : Int) (t : ChatTurn) (rest : List ChatTurn)
    (hchat : st.chat = t :: rest) :
    ((handleNewConversation st fid now).conversations.head?).map
        (fun c => c.title) =
      some (if trimStr t.question = [] then "New conversation".toList
            else if (trimStr t.question).length ≤ 60 then trimStr t.question
            else (trimStr t.question).take 57 ++ "...".toList) := by
  simp only [handleNewConversation, hchat, List.head?_cons, Option.map_some']
  by_cases hq : trimStr t.question = []
  · rw [if_neg (not_not_intro hq), if_pos hq,
      if_neg (by decide : ¬("New conversation".toList).length > 60)]
  · by_cases hlen : (trimStr t.question).length ≤ 60
    · rw [if_pos hq, if_neg hq, if_pos hlen,
        if_neg (by omega : ¬(trimStr t.question).length > 60)]
    · rw [if_pos hq, if_neg hq, if_neg hlen,
        if_pos (by omega : (trimStr t.question).length > 60)]

/-- Witness instantiating the title-derivation theorem on a one-turn state
whose first question trims to a short title. -/
theorem newConversation_title_derivation_witness :
    ((handleNewConversation titledState [] 0).conversations.head?).map
        (fun c => c.title) =
      some ("What is recursion?".toList) := by
  rw [newConversation_title_derivation titledState [] 0 exampleTurn [] rfl]
  decide

/-- C9 counterexample: deleting a conversation whose remote id is the empty
string while the active session's remote id is also the empty string — a
non-null match — does not clear the active session, because the source
guards the reset with JavaScript truthiness of the active id
(`conversationId && ...`) and the empty string is falsy. -/
theorem delete_matching_empty_remote_cex :
    emptyRemoteChatState.conversationId = some [] ∧
    emptyRemoteConv.conversationId = some [] ∧
    (handleDeleteConversation emptyRemoteChatState emptyRemoteConv).chat =
      [exampleTurn] ∧
    [exampleTurn] ≠ ([] : List ChatTurn) := by
  refine ⟨rfl, rfl, rfl, ?_⟩
  decide

/-- C9 amended: deleteConversation removes every stored entry carrying the
deleted conversation's local id and keeps all others; when the deleted
conversation's remote id is a non-empty string equal to the active session's
remote id, the active session is cleared; when the truthiness-guarded match
fails (including when both remote ids are the empty string), the active
session's state is left completely unmodified. -/
theorem deleteConversation_store_and_session (st : AppState)
    (conv : SavedConversation ChatTurn) :
    (∀ c ∈ (handleDeleteConversation st conv).conversations, c.id ≠ conv.id) ∧
    (∀ c ∈ st.conversations, c.id ≠ conv.id →
        c ∈ (handleDeleteConversation st conv).conversations) ∧
    (∀ s, st.conversationId = some s → s ≠ [] → conv.conversationId = some s →
        (handleDeleteConversation st conv).conversationId = none ∧
        (handleDeleteConversation st conv).chat = [] ∧
        (handleDeleteConversation st conv).question = [] ∧
        (handleDeleteConversation st conv).code = [] ∧
        (handleDeleteConversation st conv).errorMsg = [] ∧
        (handleDeleteConversation st conv).errorText = none) ∧
    (¬(optStrTruthy st.conversationId ∧
          conv.conversationId = st.conversationId) →
        (handleDeleteConversation st conv).conversationId =
          st.conversationId ∧
        (handleDeleteConversation st conv).chat = st.chat ∧
        (handleDeleteConversation st conv).question = st.question ∧
        (handleDeleteConversation st conv).code = st.code ∧
        (handleDeleteConversation st conv).errorMsg = st.errorMsg ∧
        (handleDeleteConversation st conv).errorText = st.errorText ∧
        (handleDeleteConversation st conv).showCodeInput =
          st.showCodeInput ∧
        (handleDeleteConversation st conv).showErrorInput =
          st.showErrorInput ∧
        (handleDeleteConversation st conv).loading = st.loading) := by
  refine ⟨?_, ?_, ?_, ?_⟩
  · intro c hc
    unfold handleDeleteConversation at hc
    split at hc <;> simp only at hc <;>
      exact of_decide_eq_true (List.mem_filter.mp hc).2
  · intro c hc hne
    unfold handleDeleteConversation
    split <;> simp only <;>
      exact List.mem_filter.mpr ⟨hc, decide_eq_true hne⟩
  · intro s hs hsne hconv
    have htruthy : optStrTruthy st.conversationId = true := by
      rw [hs]
      rcases s with _ | ⟨a, as⟩
      · exact absurd rfl hsne
      · rfl
    have hcond : optStrTruthy st.conversationId ∧
        conv.conversationId = st.conversationId := by
      exact ⟨htruthy, by rw [hs, hconv]⟩
    unfold handleDeleteConversation
    rw [if_pos hcond]
    exact ⟨rfl, rfl, rfl, rfl, rfl, rfl⟩
  · intro hcond
    unfold handleDeleteConversation
    rw [if_neg hcond]
    exact ⟨rfl, rfl, rfl, rfl, rfl, rfl, rfl, rfl, rfl⟩

/-- Witness instantiating the delete theorem: deleting the conversation
bound to the active session's non-empty remote id clears the active chat. -/
theorem deleteConversation_store_and_session_witness :
    (handleDeleteConversation boundChatState activeConv).chat = [] :=
  ((deleteConversation_store_and_session boundChatState activeConv).2.2.1
    ("abc123".toList) rfl (by decide) rfl).2.1

/-- Structure of a successful single-record sanitation: the emitted id is
the chosen one, it is pushed on the seen set, and the counter advances as
`chooseId` dictates. -/
theorem sanitizeOne_ok (alloc : Nat → Str) (now : Int) (c : Json)
    (seen : List Str) (ctr : Nat) (conv : SavedConversation Json)
    (seen' : List Str) (ctr' : Nat)
    (h : sanitizeOne alloc now c seen ctr = .ok (conv, seen', ctr')) :
    conv.id = (chooseId alloc (rawIdOf c) seen ctr).1 ∧
    seen' = conv.id :: seen ∧
    ctr' = (chooseId alloc (rawIdOf c) seen ctr).2 := by
  cases c <;> simp only [sanitizeOne, Except.ok.injEq, Prod.mk.injEq,
    reduceCtorEq] at h <;>
    obtain ⟨h1, h2, h3⟩ := h <;> subst h1 <;> subst h2 <;> subst h3 <;>
    exact ⟨rfl, rfl, rfl⟩

/-- A non-null record always sanitizes successfully. -/
theorem sanitizeOne_ne_null (alloc : Nat → Str) (now : Int) (c : Json)
    (seen : List Str) (ctr : Nat) (hc : c ≠ .jnull) :
    ∃ conv seen' ctr',
      sanitizeOne alloc now c seen ctr = .ok (conv, seen', ctr') := by
  cases c
  · exact absurd rfl hc
  all_goals exact ⟨_, _, _, rfl⟩

/-- Dichotomy of the id choice: either the id is reallocated from the
stream and the counter advances, or the record's own non-blank, unseen id is
kept and the counter is unchanged. -/
theorem chooseId_spec (alloc : Nat → Str) (rawId : Str) (seen : List Str)
    (ctr : Nat) :
    ((chooseId alloc rawId seen ctr).1 = alloc ctr ∧
      (chooseId alloc rawId seen ctr).2 = ctr + 1) ∨
    ((chooseId alloc rawId seen ctr).1 = rawId ∧
      (chooseId alloc rawId seen ctr).2 = ctr ∧
      rawId ≠ [] ∧ rawId ∉ seen) := by
  unfold chooseId
  split
  · exact Or.inl ⟨rfl, rfl⟩
  · next hn =>
    exact Or.inr ⟨rfl, rfl, fun h => hn (Or.inl h), fun h => hn (Or.inr h)⟩

/-- Key invariant of batch sanitation: if the allocator stream is injective
and its values from the current counter on avoid both the already-seen ids
and every candidate id occurring in the remaining records, the emitted local
ids are pairwise distinct and disjoint from the seen set. -/
theorem sanitizeAll_ids_nodup (alloc : Nat → Str) (now : Int)
    (hinj : Function.Injective alloc) (records : List Json) :
    ∀ (seen : List Str) (ctr : Nat)
      (out : List (SavedConversation Json)),
      (∀ n, ctr ≤ n → alloc n ∉ seen ∧ alloc n ∉ records.map rawIdOf) →
      sanitizeAll alloc now records seen ctr = .ok out →
      (out.map (fun c => c.id)).Nodup ∧
        ∀ x ∈ out.map (fun c => c.id), x ∉ seen := by
  induction records with
  | nil =>
    intro seen ctr out _ heq
    simp only [sanitizeAll, Except.ok.injEq] at heq
    subst heq
    simp
  | cons c rest ih =>
    intro seen ctr out hfresh heq
    rw [sanitizeAll] at heq
    rcases hso : sanitizeOne alloc now c seen ctr with e | ⟨conv, seen', ctr'⟩
    · rw [hso] at heq
      simp at heq
    · rw [hso] at heq
      simp only [] at heq
      rcases hsa : sanitizeAll alloc now rest seen' ctr' with e | convs
      · rw [hsa] at heq
        simp at heq
      · rw [hsa] at heq
        simp only [Except.ok.injEq] at heq
        subst heq
        obtain ⟨hid, hseen', hctr'⟩ :=
          sanitizeOne_ok alloc now c seen ctr conv seen' ctr' hso
        have hmap : (c :: rest).map rawIdOf = rawIdOf c :: rest.map rawIdOf :=
          List.map_cons rawIdOf c rest
        have key : conv.id ∉ seen ∧
            (∀ n, ctr' ≤ n →
              alloc n ∉ seen' ∧ alloc n ∉ rest.map rawIdOf) := by
          rcases chooseId_spec alloc (rawIdOf c) seen ctr with
            ⟨h1, h2⟩ | ⟨h1, h2, hraw_ne, hraw_nmem⟩
          · rw [h1] at hid
            rw [h2] at hctr'
            refine ⟨hid ▸ (hfresh ctr le_rfl).1, ?_⟩
            intro n hn
            rw [hctr'] at hn
            have hle : ctr ≤ n := by omega
            constructor
            · rw [hseen']
              intro hmem
              rcases List.mem_cons.mp hmem with he | hmem'
              · rw [hid] at he
                exact absurd (hinj he) (by omega)
              · exact (hfresh n hle).1 hmem'
            · intro hm
              refine (hfresh n hle).2 ?_
              rw [hmap]
              exact List.mem_cons_of_mem _ hm
          · rw [h1] at hid
            rw [h2] at hctr'
            refine ⟨hid ▸ hraw_nmem, ?_⟩
            intro n hn
            rw [hctr'] at hn
            constructor
            · rw [hseen']
              intro hmem
              rcases List.mem_cons.mp hmem with he | hmem'
              · refine (hfresh n hn).2 ?_
                rw [hmap]
                rw [hid] at he
                rw [he]
                exact List.mem_cons_self _ _
              · exact (hfresh n hn).1 hmem'
            · intro hm
              refine (hfresh n hn).2 ?_
              rw [hmap]
              exact List.mem_cons_of_mem _ hm
        obtain ⟨hid_not_seen, hfresh'⟩ := key
        obtain ⟨hnodup, hdisj⟩ := ih seen' ctr' convs hfresh' hsa
        have hself : conv.id ∈ seen' := by
          rw [hseen']
          exact List.mem_cons_self _ _
        constructor
        · rw [List.map_cons]
          refine List.nodup_cons.mpr ⟨?_, hnodup⟩
          intro hmem
          exact hdisj conv.id hmem hself
        · intro x hx
          rw [List.map_cons] at hx
          rcases List.mem_cons.mp hx with rfl | hx'
          · exact hid_not_seen
          · intro hxseen
            refine hdisj x hx' ?_
            rw [hseen']
            exact List.mem_cons_of_mem _ hxseen

/-- C1: for every persisted collection — including one containing blank,
missing or duplicate local ids — the conversations returned by the load
initializer have pairwise distinct local ids: a record whose id is missing,
blank or already seen in this load pass gets a fresh id from the allocator
stream before it is emitted.  The hypotheses say the allocator produces
collision-free ids: the stream is injective and avoids the candidate ids
present in the persisted data, which is what `crypto.randomUUID()`
guarantees in practice. -/
theorem load_localIds_pairwise_distinct (alloc : Nat → Str) (now : Int)
    (raw : Option Json)
    (hinj : Function.Injective alloc)
    (hfresh : ∀ n, alloc n ∉ rawStrIds raw) :
    ((loadConversations alloc now raw).map (fun c => c.id)).Nodup := by
  rcases raw with _ | j
  · simp [loadConversations]
  · cases j
    case jarr records =>
      rcases hsa : sanitizeAll alloc now records [] 0 with e | convs
      · simp [loadConversations, hsa]
      · have h := sanitizeAll_ids_nodup alloc now hinj records [] 0 convs
          (fun n _ => ⟨by simp, by simpa [rawStrIds] using hfresh n⟩) hsa
        simpa [loadConversations, hsa] using h.1
    all_goals simp [loadConversations]

/-- Witness instantiating the id-uniqueness theorem on a persisted
collection with a duplicated id and a record missing its id, under a
concrete injective allocator stream. -/
theorem load_localIds_pairwise_distinct_witness :
    ((loadConversations wAlloc 0 wRaw).map (fun c => c.id)).Nodup := by
  apply load_localIds_pairwise_distinct
  · intro a b hab
    have hl := congrArg List.length hab
    simp only [wAlloc, List.length_replicate] at hl
    omega
  · intro n
    have hids : rawStrIds wRaw = [['a'], ['a'], ([] : Str)] := rfl
    have hx : wAlloc n = 'x' :: List.replicate n 'x' := rfl
    rw [hids, hx]
    intro hmem
    simp only [List.mem_cons, List.not_mem_nil, or_false] at hmem
    rcases hmem with h | h | h
    · injection h with h1 _
      exact absurd h1 (by decide)
    · injection h with h1 _
      exact absurd h1 (by decide)
    · exact List.cons_ne_nil _ _ h

/-- C6 counterexample: a persisted array mixing a well-formed record with a
null element loads as the empty sequence — the property access `c.id` on
the null element throws inside the map callback and the surrounding
try/catch discards the whole batch — instead of yielding one sanitized
conversation per element. -/
theorem load_mixed_batch_discarded_cex :
    cMixedRaw = some (Json.jarr [cGood, Json.jnull]) ∧
    (loadConversations wAlloc 0 cMixedRaw).length = 0 := by
  exact ⟨rfl, rfl⟩

/-- A batch with no null element sanitizes successfully, emitting exactly
one conversation per record. -/
theorem sanitizeAll_length (alloc : Nat → Str) (now : Int)
    (records : List Json) :
    ∀ (seen : List Str) (ctr : Nat),
      (∀ c ∈ records, c ≠ Json.jnull) →
      ∃ out, sanitizeAll alloc now records seen ctr = .ok out ∧
        out.length = records.length := by
  induction records with
  | nil =>
    intro seen ctr _
    exact ⟨[], rfl, rfl⟩
  | cons c rest ih =>
    intro seen ctr hnn
    obtain ⟨conv, seen', ctr', hso⟩ :=
      sanitizeOne_ne_null alloc now c seen ctr (hnn c (List.mem_cons_self _ _))
    obtain ⟨out, hsa, hlen⟩ :=
      ih seen' ctr' (fun d hd => hnn d (List.mem_cons_of_mem _ hd))
    refine ⟨conv :: out, ?_, by simp [hlen]⟩
    rw [sanitizeAll, hso]
    simp [hsa]

/-- C6 amended: the load initializer never fails with an unhandled error —
an absent or unparseable slot and a parsed non-array value both yield the
empty sequence — and each non-null record of a persisted array is sanitized
independently, one conversation per element; an array containing a null
element, however, makes the whole batch fall to the catch and load yields
the empty sequence. -/
theorem load_never_fails_and_sanitizes_independently (alloc : Nat → Str)
    (now : Int) :
    loadConversations alloc now none = [] ∧
    (∀ j : Json, (∀ xs, j ≠ Json.jarr xs) →
      loadConversations alloc now (some j) = []) ∧
    (∀ records : List Json, (∀ c ∈ records, c ≠ Json.jnull) →
      (loadConversations alloc now (some (Json.jarr records))).length =
        records.length) := by
  refine ⟨rfl, ?_, ?_⟩
  · intro j hj
    cases j
    case jarr xs => exact absurd rfl (hj xs)
    all_goals rfl
  · intro records hnn
    obtain ⟨out, hsa, hlen⟩ := sanitizeAll_length alloc now records [] 0 hnn
    simp [loadConversations, hsa, hlen]

/-- Witness instantiating the independent-sanitation theorem: a two-record
null-free batch with duplicate candidate ids loads as exactly two
conversations. -/
theorem load_never_fails_and_sanitizes_independently_witness :
    (loadConversations wAlloc 0 (some (Json.jarr [cGood, cGood]))).length =
      2 := by
  have hnn : ∀ c ∈ [cGood, cGood], c ≠ Json.jnull := by
    intro c hc
    rcases List.mem_cons.mp hc with rfl | hc'
    · simp [cGood]
    · rw [List.mem_singleton] at hc'
      subst hc'
      simp [cGood]
  have h := (load_never_fails_and_sanitizes_independently wAlloc 0).2.2
    [cGood, cGood] hnn
  simpa using h

end RagMentor
